import Mathlib

/-!
Formal model of the credential and session lifecycle engine of
`src/services/AuthService.js`: token issuance, refresh-token rotation with
reuse detection, cascade revocation along successor chains, logout and
logout-all, the 2FA login flow, and user-object sanitisation.

The `Session` table (`CREATE TABLE "Session"` in the migration) is modelled as
a list of rows with a unique `refreshJti`; prisma primitives become list
operations.  JWTs are modelled structurally: `Token.invalid` stands for any
string rejected by `jwt.verify` (bad signature, malformed, or expired — expiry
is enforced inside `jwt.verify`, so the model needs no clock).  `randomUUID`
freshness is modelled by a counter strictly above every jti handed out so far.
The `expiresAt` column and the periodic `cleanupExpiredSessions` sweep are not
modelled: no claim mentions them, and token expiry is already captured at
verification time.
-/

namespace FoundryAuth

/-- The error classes the service throws (`ValidationError`,
`UnauthorizedError`, `ConflictError` from `../middleware/errorHandler.js`),
carrying their message. -/
inductive AuthError where
  | validation (msg : String)
  | unauthorized (msg : String)
  | conflict (msg : String)
deriving Repr, DecidableEq

/-- A JWT as this service mints and verifies it.  `sub`, `jti` and device ids
are modelled as naturals.  `invalid` is any token string that fails
`jwt.verify`. -/
inductive Token where
  | access (sub : Nat)
  | refresh (sub : Nat) (jti : Nat) (did : Nat)
  | temp (sub : Nat)
  | invalid
deriving Repr, DecidableEq

/-- One row of the `Session` table: a node of the refresh-token family graph,
keyed by the unique `refreshJti`.  `replacedBy` is the successor link set by
rotation. -/
structure Session where
  userId : Nat
  deviceId : Nat
  refreshJti : Nat
  revoked : Bool
  replacedBy : Option Nat
deriving Repr, DecidableEq

/-- The persisted session state: the `Session` table plus the supply of fresh
`jti` values (the code draws them from `randomUUID`; the model draws them from
a counter kept above every jti issued so far). -/
structure AuthState where
  sessions : List Session
  nextJti : Nat
deriving Repr, DecidableEq

/-- `prisma.session.findUnique({ where: { refreshJti: jti } })`: first (and,
on well-formed states, only) row with the given jti. -/
def findSession (jti : Nat) : List Session → Option Session
  | [] => none
  | s :: ss => if s.refreshJti == jti then some s else findSession jti ss

/-- The per-row effect of the `revoked: true` update at key `jti`. -/
def revokeRow (jti : Nat) (s : Session) : Session :=
  if s.refreshJti == jti then { s with revoked := true } else s

/-- `prisma.session.update({ where: { refreshJti }, data: { revoked: true } })`
— the write inside `revokeFamily` and `logout`. -/
def updateRevoke (jti : Nat) (ss : List Session) : List Session :=
  ss.map (revokeRow jti)

/-- The per-row effect of the rotation update at key `jti`. -/
def rotateRow (jti newJti : Nat) (s : Session) : Session :=
  if s.refreshJti == jti then { s with revoked := true, replacedBy := some newJti } else s

/-- `prisma.session.update({ where: { refreshJti }, data: { revoked: true,
replacedBy: newJti } })` — the rotation update inside `rotateRefresh`.  Note
that, as in the source, it is unconditional on the row's current state: there
is no `revoked: false` guard and no failure path. -/
def updateRotate (jti newJti : Nat) (ss : List Session) : List Session :=
  ss.map (rotateRow jti newJti)

/-- `issueTokens(userId, deviceId)`: mint an access token and a refresh token
carrying a fresh `jti`, and persist the corresponding active session row. -/
def issueTokens (userId did : Nat) (st : AuthState) : (Token × Token) × AuthState :=
  let jti := st.nextJti
  let row : Session :=
    { userId := userId, deviceId := did, refreshJti := jti, revoked := false,
      replacedBy := none }
  ((Token.access userId, Token.refresh userId jti did),
   { sessions := st.sessions ++ [row], nextJti := jti + 1 })

/-- `jwt.decode(token).jti` for a token this service signed. -/
def decodeJti : Token → Option Nat
  | .refresh _ jti _ => some jti
  | _ => none

/-- The recursion of `revokeFamily(jti)`: find the row, set `revoked`, recurse
on the `replacedBy` read from the fetched row.  The JS recursion carries no
bound; `fuel` only caps a hypothetical cycle and is always instantiated as
`ss.length + 1`, enough for every acyclic chain, so the two agree on every
state this service produces. -/
def revokeChain : Nat → Nat → List Session → List Session
  | 0, _, ss => ss
  | fuel + 1, jti, ss =>
    match findSession jti ss with
    | none => ss
    | some s =>
      match s.replacedBy with
      | some next => revokeChain fuel next (updateRevoke jti ss)
      | none => updateRevoke jti ss

/-- `revokeFamily(jti)`: cascade revocation forward along successor links. -/
def revokeFamily (jti : Nat) (st : AuthState) : AuthState :=
  { st with sessions := revokeChain (st.sessions.length + 1) jti st.sessions }

/-- `rotateRefresh(refreshToken)`.  The pair `(result, state after the call)`
is returned explicitly because the reuse branch first mutates state
(`revokeFamily`) and then throws. -/
def rotateRefresh (tok : Option Token) (st : AuthState) :
    Except AuthError (Token × Token) × AuthState :=
  match tok with
  | none => (.error (.validation "Refresh token is required"), st)
  | some .invalid => (.error (.unauthorized "Invalid or expired refresh token"), st)
  | some (.access _) => (.error (.unauthorized "Invalid token type"), st)
  | some (.temp _) => (.error (.unauthorized "Invalid token type"), st)
  | some (.refresh sub jti did) =>
    match findSession jti st.sessions with
    | none => (.error (.unauthorized "Session not found"), st)
    | some s =>
      if s.revoked then
        (.error (.unauthorized "Token has been revoked"), revokeFamily jti st)
      else
        let r := issueTokens sub did st
        let newJti := (decodeJti r.1.2).getD 0
        (.ok r.1, { r.2 with sessions := updateRotate jti newJti r.2.sessions })

/-- `logout(refreshToken)`: best-effort revocation, always returns success.
A missing token returns early; `jwt.verify` failure, a token without a `jti`
claim (wrong type), and a missing session row (the prisma update throws) are
all swallowed by the catch. -/
def logout (tok : Option Token) (st : AuthState) : Bool × AuthState :=
  match tok with
  | some (.refresh _ jti _) =>
    match findSession jti st.sessions with
    | some _ => (true, { st with sessions := updateRevoke jti st.sessions })
    | none => (true, st)
  | _ => (true, st)

/-- The row predicate of `logoutAllDevices`' `updateMany`:
`{ userId, revoked: false }`. -/
def ownedActive (userId : Nat) (s : Session) : Bool :=
  s.userId == userId && s.revoked == false

/-- The per-row effect of `logoutAllDevices`' `updateMany`. -/
def logoutAllRow (userId : Nat) (s : Session) : Session :=
  if ownedActive userId s then { s with revoked := true } else s

/-- `logoutAllDevices(userId)`: `updateMany` over the user's non-revoked rows;
returns the affected-row count. -/
def logoutAllDevices (userId : Nat) (st : AuthState) : Nat × AuthState :=
  ((st.sessions.filter (ownedActive userId)).length,
   { st with sessions := st.sessions.map (logoutAllRow userId) })

/-- One call into the session-mutating API, for reachability statements. -/
inductive Op where
  | issueTok (userId did : Nat)
  | rotate (tok : Option Token)
  | doLogout (tok : Option Token)
  | logoutAll (userId : Nat)
  | revokeFam (jti : Nat)
deriving Repr, DecidableEq

/-- The state after an operation (call results discarded). -/
def applyOp : Op → AuthState → AuthState
  | .issueTok u d, st => (issueTokens u d st).2
  | .rotate tok, st => (rotateRefresh tok st).2
  | .doLogout tok, st => (logout tok st).2
  | .logoutAll u, st => (logoutAllDevices u st).2
  | .revokeFam j, st => revokeFamily j st

/-- The state before any session was issued. -/
def initState : AuthState := { sessions := [], nextJti := 0 }

/-- Run a sequence of operations from a given state, in order. -/
def applyOps (ops : List Op) (st : AuthState) : AuthState :=
  ops.foldl (fun acc op => applyOp op acc) st

/-- Run a sequence of operations from the initial state. -/
def runOps (ops : List Op) : AuthState :=
  applyOps ops initState

/-- Decidable form of the node invariant: an unrevoked row has no successor. -/
def invariantB (st : AuthState) : Bool :=
  st.sessions.all (fun s => s.revoked || s.replacedBy.isNone)

/-- A successor's jti is strictly above its parent's (successors are drawn
fresh, after the parent existed). -/
def succIncrB (s : Session) : Bool :=
  match s.replacedBy with
  | some k => s.refreshJti < k
  | none => true

/-- Well-formedness of a session state, as maintained by the service: jtis are
below the fresh counter, unique, successor links increase, and unrevoked rows
have no successor. -/
structure WF (st : AuthState) : Prop where
  bounded : ∀ s ∈ st.sessions, s.refreshJti < st.nextJti
  nodup : (st.sessions.map Session.refreshJti).Nodup
  incr : ∀ s ∈ st.sessions, succIncrB s = true
  activeNoSucc : ∀ s ∈ st.sessions, s.revoked = false → s.replacedBy = none

/-- The jtis `revokeChain fuel j ss` visits, in order: the successor chain read
off `ss` starting at `j`, truncated at `fuel` hops. -/
def chainJtis : Nat → Nat → List Session → List Nat
  | 0, _, _ => []
  | fuel + 1, jti, ss =>
    match findSession jti ss with
    | none => []
    | some s =>
      match s.replacedBy with
      | some next => jti :: chainJtis fuel next ss
      | none => [jti]

/-- Revoke a row exactly when its jti is in the given set — the cumulative
per-row effect of a cascade walk. -/
def revokeIfMem (chain : List Nat) (s : Session) : Session :=
  if s.refreshJti ∈ chain then { s with revoked := true } else s

/-- `ReachesN ss n j m`: starting at jti `j` and following `replacedBy` links
through rows of `ss` for `n` hops arrives at jti `m`. -/
inductive ReachesN (ss : List Session) : Nat → Nat → Nat → Prop where
  | refl (j : Nat) : ReachesN ss 0 j j
  | step {n j next m : Nat} {s : Session} (hfind : findSession j ss = some s)
      (hsucc : s.replacedBy = some next) (htail : ReachesN ss n next m) :
      ReachesN ss (n + 1) j m

/-- Revocation-monotone row correspondence between two session tables: every
row survives under its jti, and a revoked row stays revoked. -/
def Mono (ss ss2 : List Session) : Prop :=
  ∀ j s, findSession j ss = some s →
    ∃ s2, findSession j ss2 = some s2 ∧ (s.revoked = true → s2.revoked = true)

/-!  A small-step view of `rotateRefresh` for the concurrency analysis of §5 of
the spec: one program-counter position per awaited database operation of the
source, so that two in-flight calls can interleave at exactly the points the
real service can. -/

/-- Program counter of one in-flight `rotateRefresh` call (token already
verified). -/
inductive RotPC where
  | ready                   -- before the session findUnique
  | creating                -- session read back unrevoked; before the new session create
  | updating (newJti : Nat) -- new session created; before the parent update
  | done (newJti : Nat)     -- returned the fresh pair
  | cascading               -- session read back revoked; before revokeFamily
  | failed (msg : String)   -- threw
deriving Repr, DecidableEq

/-- One atomic step of a `rotateRefresh` call presenting the refresh token
`(sub, jti, did)`: the awaited prisma operations of the source, in order.
(`cascading` performs the whole `revokeFamily` walk in one step — a coarser
grain that only removes interleavings; the behaviour exhibited below never
enters that branch.) -/
def rotStep (sub jti did : Nat) : RotPC → AuthState → RotPC × AuthState
  | .ready, st =>
    match findSession jti st.sessions with
    | none => (.failed "Session not found", st)
    | some s => if s.revoked then (.cascading, st) else (.creating, st)
  | .creating, st =>
    let r := issueTokens sub did st
    (.updating ((decodeJti r.1.2).getD 0), r.2)
  | .updating n, st => (.done n, { st with sessions := updateRotate jti n st.sessions })
  | .cascading, st => (.failed "Token has been revoked", revokeFamily jti st)
  | pc, st => (pc, st)

/-- Two concurrent `rotateRefresh` calls over one shared state. -/
structure TwoRotations where
  pc1 : RotPC
  pc2 : RotPC
  state : AuthState
deriving Repr, DecidableEq

/-- Let one of the two calls (both presenting the same token `(sub, jti, did)`)
take its next atomic step. -/
def twoStep (sub jti did : Nat) (c : TwoRotations) (first : Bool) : TwoRotations :=
  if first then
    let r := rotStep sub jti did c.pc1 c.state
    { c with pc1 := r.1, state := r.2 }
  else
    let r := rotStep sub jti did c.pc2 c.state
    { c with pc2 := r.1, state := r.2 }

/-- Run a schedule (`true` = first call steps, `false` = second call steps). -/
def runSched (sub jti did : Nat) (sched : List Bool) (c : TwoRotations) : TwoRotations :=
  sched.foldl (twoStep sub jti did) c

/-!  The user-facing operations: registration, password login, the 2FA flow,
and user lookup. -/

/-- One row of the `User` table (the columns this service touches). -/
structure User where
  id : Nat
  email : String
  passwordHash : String
  displayName : String
  age : Nat
  twoFAEnabled : Bool
  totpSecret : Option String
deriving Repr, DecidableEq

/-- Full service state: the `User` table, the informational `Device` table
(keyed by user and device id), the session state, and the id supply for new
users. -/
structure SysState where
  users : List User
  devices : List (Nat × Nat)
  auth : AuthState
  nextUserId : Nat
deriving Repr, DecidableEq

/-- `email.toLowerCase()`: case folding, written char-by-char so that it
evaluates by kernel reduction. -/
def lowerString (s : String) : String := String.mk (s.data.map Char.toLower)

/-- Equality on `Except` results is decidable (used only to evaluate the
model on concrete runs). -/
instance exceptDecEq {α β : Type} [DecidableEq α] [DecidableEq β] :
    DecidableEq (Except α β) := fun x y =>
  match x, y with
  | .error a, .error b =>
    if h : a = b then isTrue (by rw [h]) else
      isFalse (by intro hc; cases hc; exact h rfl)
  | .error _, .ok _ => isFalse (by intro hc; cases hc)
  | .ok _, .error _ => isFalse (by intro hc; cases hc)
  | .ok a, .ok b =>
    if h : a = b then isTrue (by rw [h]) else
      isFalse (by intro hc; cases hc; exact h rfl)

/-- Modelled from the spec: the adaptive salted password hash and its
comparison (`bcrypt.hash` / `bcrypt.compare`), an external black-box
collaborator (§6).  Hashing is modelled as injective tagging; comparison
succeeds exactly on the hash of the same password. -/
def bcryptHash (password : String) : String := "bcrypt:" ++ password

/-- Modelled from the spec: `bcrypt.compare(password, hash)` (§6). -/
def bcryptCompare (password hash : String) : Bool := hash == bcryptHash password

/-- Modelled from the spec: the TOTP time-window checker
(`otplib.authenticator.check(code, secret)`), an external black box (§6);
code validity is abstracted as matching the stored secret. -/
def totpCheck (code secret : String) : Bool := code == secret

/-- A JS object field value. -/
inductive JsVal where
  | str (s : String)
  | nat (n : Nat)
  | bool (b : Bool)
  | null
deriving Repr, DecidableEq

/-- The prisma `User` row as the JS object the service manipulates. -/
def userObject (u : User) : List (String × JsVal) :=
  [("id", .nat u.id), ("email", .str u.email), ("passwordHash", .str u.passwordHash),
   ("displayName", .str u.displayName), ("age", .nat u.age),
   ("twoFAEnabled", .bool u.twoFAEnabled),
   ("totpSecret", match u.totpSecret with | some s => .str s | none => .null)]

/-- `sanitizeUser(user)`: the rest-destructuring
`const { passwordHash, totpSecret, ...safeUser } = user`, which keeps every
own property except the two named ones. -/
def sanitizeUser (u : User) : List (String × JsVal) :=
  (userObject u).filter (fun p => !(p.1 == "passwordHash" || p.1 == "totpSecret"))

/-- Property access on a JS object. -/
def lookupField (key : String) : List (String × JsVal) → Option JsVal
  | [] => none
  | p :: ps => if p.1 == key then some p.2 else lookupField key ps

/-- `prisma.user.findUnique({ where: { email: email.toLowerCase() } })`. -/
def findUserByEmail (email : String) (us : List User) : Option User :=
  us.find? (fun u => u.email == lowerString email)

/-- `prisma.user.findUnique({ where: { id } })`. -/
def findUserById (uid : Nat) (us : List User) : Option User :=
  us.find? (fun u => u.id == uid)

/-- `prisma.device.upsert` on the composite key (the informational columns are
not modelled). -/
def upsertDevice (uid did : Nat) (ds : List (Nat × Nat)) : List (Nat × Nat) :=
  if ds.contains (uid, did) then ds else ds ++ [(uid, did)]

/-- `signTemp(userId)`: the short-lived 2FA bridging token. -/
def signTemp (uid : Nat) : Token := .temp uid

/-- What `login` returns on success: either a 2FA challenge
(`{ require2FA: true, tempToken }` — no tokens, no user) or a sanitised user
with a token pair. -/
inductive LoginResult where
  | challenge (tempToken : Token)
  | tokens (user : List (String × JsVal)) (accessToken refreshToken : Token)
deriving Repr, DecidableEq

/-- `register(email, password, displayName, age)`. -/
def register (email password displayName : String) (age : Nat) (st : SysState) :
    Except AuthError (List (String × JsVal)) × SysState :=
  if email == "" || password == "" || displayName == "" then
    (.error (.validation "Email, password, and display name are required"), st)
  else if password.length < 8 then
    (.error (.validation "Password must be at least 8 characters"), st)
  else if age < 18 then
    (.error (.validation "You must be 18 or older to register"), st)
  else
    match findUserByEmail email st.users with
    | some _ => (.error (.conflict "Email already registered"), st)
    | none =>
      let u : User :=
        { id := st.nextUserId, email := lowerString email,
          passwordHash := bcryptHash password, displayName := displayName, age := age,
          twoFAEnabled := false, totpSecret := none }
      (.ok (sanitizeUser u),
       { st with users := st.users ++ [u], nextUserId := st.nextUserId + 1 })

/-- `login(email, password, deviceId)`. -/
def login (email password : String) (did : Nat) (st : SysState) :
    Except AuthError LoginResult × SysState :=
  if email == "" || password == "" then
    (.error (.validation "Email and password are required"), st)
  else
    match findUserByEmail email st.users with
    | none => (.error (.unauthorized "Invalid email or password"), st)
    | some u =>
      if bcryptCompare password u.passwordHash then
        let st1 := { st with devices := upsertDevice u.id did st.devices }
        if u.twoFAEnabled && u.totpSecret.isSome then
          (.ok (.challenge (signTemp u.id)), st1)
        else
          let r := issueTokens u.id did st1.auth
          (.ok (.tokens (sanitizeUser u) r.1.1 r.1.2), { st1 with auth := r.2 })
      else
        (.error (.unauthorized "Invalid email or password"), st)

/-- `verify2FA(tempToken, code, deviceId)`. -/
def verify2FA (tempToken : Option Token) (code : String) (did : Nat) (st : SysState) :
    Except AuthError (List (String × JsVal) × Token × Token) × SysState :=
  match tempToken with
  | none => (.error (.validation "Temp token and 2FA code are required"), st)
  | some t =>
    if code == "" then
      (.error (.validation "Temp token and 2FA code are required"), st)
    else
      match t with
      | .invalid => (.error (.unauthorized "Invalid or expired temp token"), st)
      | .access _ => (.error (.unauthorized "Invalid token type"), st)
      | .refresh _ _ _ => (.error (.unauthorized "Invalid token type"), st)
      | .temp uid =>
        match findUserById uid st.users with
        | none => (.error (.unauthorized "2FA not enabled for this user"), st)
        | some u =>
          match u.totpSecret with
          | none => (.error (.unauthorized "2FA not enabled for this user"), st)
          | some secret =>
            if u.twoFAEnabled then
              if totpCheck code secret then
                let r := issueTokens u.id did st.auth
                (.ok (sanitizeUser u, r.1.1, r.1.2), { st with auth := r.2 })
              else
                (.error (.unauthorized "Invalid 2FA code"), st)
            else
              (.error (.unauthorized "2FA not enabled for this user"), st)

/-- `getUserById(userId)` (the `subscription` join is informational and not
modelled). -/
def getUserById (uid : Nat) (st : SysState) : Except AuthError (List (String × JsVal)) :=
  match findUserById uid st.users with
  | none => .error (.unauthorized "User not found")
  | some u => .ok (sanitizeUser u)

/-- A registered principal with the second factor enabled, for concrete
instantiations. -/
def exUser2FA : User :=
  { id := 3, email := "bee@example.com", passwordHash := bcryptHash "correcthorse",
    displayName := "Bee", age := 30, twoFAEnabled := true, totpSecret := some "JBSWY3DP" }

/-- A service state holding `exUser2FA`, for concrete instantiations. -/
def exSys : SysState :=
  { users := [exUser2FA], devices := [], auth := initState, nextUserId := 4 }

/-- A run of the service: login issues jti 0; rotating it issues jti 1 and
retires 0; rotating jti 1 issues jti 2 and retires 1.  The chain is
0 → 1 → 2 with 2 still active. -/
def stChain : AuthState :=
  runOps [Op.issueTok 7 4, Op.rotate (some (Token.refresh 7 0 4)),
    Op.rotate (some (Token.refresh 7 1 4))]

/-- A run of the service: login issues jti 0, then the client logs out —
jti 0 is revoked with no successor. -/
def stLoggedOut : AuthState :=
  runOps [Op.issueTok 7 4, Op.doLogout (some (Token.refresh 7 0 4))]

/-- A run of the service: principal 1 logs in twice (jtis 0, 1) and principal
2 logs in once (jti 2). -/
def stTwoUsers : AuthState :=
  runOps [Op.issueTok 1 5, Op.issueTok 1 6, Op.issueTok 2 5]

/-- Starting configuration of the §5 race: both calls present the refresh
token of the single active session (jti 1), neither has read it yet. -/
def rotRaceInit : TwoRotations :=
  { pc1 := RotPC.ready, pc2 := RotPC.ready,
    state :=
      { sessions :=
          [{ userId := 7, deviceId := 4, refreshJti := 1, revoked := false,
             replacedBy := none }],
        nextJti := 2 } }

/-- Final configuration after the read-read-write-write schedule: both calls
finished in `done` (both returned fresh pairs), the parent's successor was
overwritten from 2 to 3, and session 2 is active but orphaned. -/
def rotRaceFinal : TwoRotations :=
  { pc1 := RotPC.done 2, pc2 := RotPC.done 3,
    state :=
      { sessions :=
          [{ userId := 7, deviceId := 4, refreshJti := 1, revoked := true,
             replacedBy := some 3 },
           { userId := 7, deviceId := 4, refreshJti := 2, revoked := false,
             replacedBy := none },
           { userId := 7, deviceId := 4, refreshJti := 3, revoked := false,
             replacedBy := none }],
        nextJti := 4 } }

/-- Operations that revoke without rotating: logout, logout-all, and the
cascade walk. -/
def nonRotating : Op → Bool
  | .doLogout _ => true
  | .logoutAll _ => true
  | .revokeFam _ => true
  | _ => false

/-- A run of the service: a single login, issuing jti 0. -/
def stOne : AuthState := runOps [Op.issueTok 7 4]

/-- The state after rotating jti 0 in `stOne`: jti 0 retired with successor 1,
jti 1 active. -/
def stOneRotated : AuthState := (rotateRefresh (some (Token.refresh 7 0 4)) stOne).2

/-- The service state before any user has registered. -/
def exEmptySys : SysState :=
  { users := [], devices := [], auth := initState, nextUserId := 0 }

/-! ### Helper lemmas about the primitives -/

theorem findSession_eq_jti {j : Nat} {ss : List Session} {s : Session}
    (h : findSession j ss = some s) : s.refreshJti = j := by
  induction ss with
  | nil => simp [findSession] at h
  | cons a l ih =>
    rw [findSession] at h
    by_cases hb : (a.refreshJti == j) = true
    · rw [if_pos hb] at h
      cases h
      exact eq_of_beq hb
    · rw [if_neg hb] at h
      exact ih h

theorem mem_of_findSession {j : Nat} {ss : List Session} {s : Session}
    (h : findSession j ss = some s) : s ∈ ss := by
  induction ss with
  | nil => simp [findSession] at h
  | cons a l ih =>
    rw [findSession] at h
    by_cases hb : (a.refreshJti == j) = true
    · rw [if_pos hb] at h
      cases h
      exact List.mem_cons_self _ _
    · rw [if_neg hb] at h
      exact List.mem_cons_of_mem a (ih h)

theorem findSession_append_some {j : Nat} {ss : List Session} {s : Session}
    (h : findSession j ss = some s) (l : List Session) :
    findSession j (ss ++ l) = some s := by
  induction ss with
  | nil => simp [findSession] at h
  | cons a t ih =>
    rw [findSession] at h
    rw [List.cons_append, findSession]
    by_cases hb : (a.refreshJti == j) = true
    · rw [if_pos hb] at h
      rw [if_pos hb]
      exact h
    · rw [if_neg hb] at h
      rw [if_neg hb]
      exact ih h

theorem findSession_map {f : Session → Session} (hf : ∀ s, (f s).refreshJti = s.refreshJti)
    (j : Nat) (ss : List Session) :
    findSession j (ss.map f) = (findSession j ss).map f := by
  induction ss with
  | nil => rfl
  | cons a l ih =>
    rw [List.map_cons, findSession, findSession, hf a]
    by_cases hb : (a.refreshJti == j) = true
    · rw [if_pos hb, if_pos hb]
      rfl
    · rw [if_neg hb, if_neg hb]
      exact ih

theorem revokeRow_jti (j : Nat) (s : Session) : (revokeRow j s).refreshJti = s.refreshJti := by
  rw [revokeRow]
  split <;> rfl

theorem revokeRow_replacedBy (j : Nat) (s : Session) :
    (revokeRow j s).replacedBy = s.replacedBy := by
  rw [revokeRow]
  split <;> rfl

theorem revokeRow_revoked_mono {j : Nat} {s : Session} (h : s.revoked = true) :
    (revokeRow j s).revoked = true := by
  rw [revokeRow]
  split
  · rfl
  · exact h

theorem rotateRow_jti (j n : Nat) (s : Session) :
    (rotateRow j n s).refreshJti = s.refreshJti := by
  rw [rotateRow]
  split <;> rfl

theorem rotateRow_revoked_mono {j n : Nat} {s : Session} (h : s.revoked = true) :
    (rotateRow j n s).revoked = true := by
  rw [rotateRow]
  split
  · rfl
  · exact h

theorem logoutAllRow_jti (u : Nat) (s : Session) :
    (logoutAllRow u s).refreshJti = s.refreshJti := by
  rw [logoutAllRow]
  split <;> rfl

theorem logoutAllRow_replacedBy (u : Nat) (s : Session) :
    (logoutAllRow u s).replacedBy = s.replacedBy := by
  rw [logoutAllRow]
  split <;> rfl

theorem logoutAllRow_revoked_mono {u : Nat} {s : Session} (h : s.revoked = true) :
    (logoutAllRow u s).revoked = true := by
  rw [logoutAllRow]
  split
  · rfl
  · exact h

theorem revokeIfMem_jti (c : List Nat) (s : Session) :
    (revokeIfMem c s).refreshJti = s.refreshJti := by
  rw [revokeIfMem]
  split <;> rfl

theorem revokeIfMem_replacedBy (c : List Nat) (s : Session) :
    (revokeIfMem c s).replacedBy = s.replacedBy := by
  rw [revokeIfMem]
  split <;> rfl

theorem revokeIfMem_revoked_mono {c : List Nat} {s : Session} (h : s.revoked = true) :
    (revokeIfMem c s).revoked = true := by
  rw [revokeIfMem]
  split
  · rfl
  · exact h

theorem chainJtis_map {f : Session → Session} (hj : ∀ s, (f s).refreshJti = s.refreshJti)
    (hr : ∀ s, (f s).replacedBy = s.replacedBy) (ss : List Session) :
    ∀ (fuel j : Nat), chainJtis fuel j (ss.map f) = chainJtis fuel j ss := by
  intro fuel
  induction fuel with
  | zero => intro j; rfl
  | succ n ih =>
    intro j
    have hm : findSession j (ss.map f) = (findSession j ss).map f := findSession_map hj j ss
    cases hfind : findSession j ss with
    | none =>
      rw [hfind] at hm
      simp [chainJtis, hm, hfind]
    | some s =>
      rw [hfind] at hm
      cases hrb : s.replacedBy with
      | none => simp [chainJtis, hm, hfind, hr s, hrb]
      | some next => simp [chainJtis, hm, hfind, hr s, hrb, ih]

theorem revokeRow_eq_revokeIfMem (j : Nat) :
    revokeRow j = revokeIfMem [j] := by
  funext x
  by_cases h : x.refreshJti = j
  · simp [revokeRow, revokeIfMem, h]
  · simp [revokeRow, revokeIfMem, h]

theorem revokeIfMem_comp_revokeRow (j : Nat) (c : List Nat) :
    (fun x => revokeIfMem c (revokeRow j x)) = revokeIfMem (j :: c) := by
  funext x
  by_cases hx : x.refreshJti = j
  · by_cases hc : x.refreshJti ∈ c
    · simp [revokeRow, revokeIfMem, hx, hc]
    · simp [revokeRow, revokeIfMem, hx, hc]
  · by_cases hc : x.refreshJti ∈ c
    · simp [revokeRow, revokeIfMem, hx, hc]
    · simp [revokeRow, revokeIfMem, hx, hc]

theorem revokeChain_eq_map :
    ∀ (fuel : Nat) (j : Nat) (ss : List Session),
      revokeChain fuel j ss = ss.map (revokeIfMem (chainJtis fuel j ss)) := by
  intro fuel
  induction fuel with
  | zero =>
    intro j ss
    have h : revokeIfMem ([] : List Nat) = fun s => s := by
      funext x
      simp [revokeIfMem]
    simp [revokeChain, chainJtis, h]
  | succ n ih =>
    intro j ss
    cases hfind : findSession j ss with
    | none =>
      have h : revokeIfMem ([] : List Nat) = fun s => s := by
        funext x
        simp [revokeIfMem]
      simp [revokeChain, chainJtis, hfind, h]
    | some s =>
      cases hrb : s.replacedBy with
      | none =>
        simp only [revokeChain, chainJtis, hfind, hrb]
        rw [updateRevoke, revokeRow_eq_revokeIfMem]
      | some next =>
        simp only [revokeChain, chainJtis, hfind, hrb]
        rw [ih next (updateRevoke j ss), updateRevoke,
          chainJtis_map (revokeRow_jti j) (revokeRow_replacedBy j), List.map_map]
        have hcomp : revokeIfMem (chainJtis n next ss) ∘ revokeRow j =
            revokeIfMem (j :: chainJtis n next ss) := by
          rw [← revokeIfMem_comp_revokeRow j (chainJtis n next ss)]
          rfl
        rw [hcomp]

theorem findSession_revokeChain (fuel j m : Nat) (ss : List Session) :
    findSession m (revokeChain fuel j ss) =
      (findSession m ss).map (revokeIfMem (chainJtis fuel j ss)) := by
  rw [revokeChain_eq_map, findSession_map (revokeIfMem_jti _)]

theorem filter_length_mono {α : Type} {p q : α → Bool} :
    ∀ l : List α, (∀ x ∈ l, p x = true → q x = true) →
      (l.filter p).length ≤ (l.filter q).length := by
  intro l
  induction l with
  | nil => intro _; exact Nat.le_refl 0
  | cons a t ih =>
    intro h
    have ht : ∀ x ∈ t, p x = true → q x = true :=
      fun x hx => h x (List.mem_cons_of_mem a hx)
    have iht := ih ht
    cases hp : p a with
    | true =>
      have hq := h a (List.mem_cons_self _ _) hp
      simp only [List.filter_cons, hp, hq, if_true, List.length_cons]
      exact Nat.succ_le_succ iht
    | false =>
      cases hq : q a with
      | true =>
        simp only [List.filter_cons, hp, hq]
        simp only [Bool.false_eq_true, if_false, if_true, List.length_cons]
        exact Nat.le_succ_of_le iht
      | false =>
        simp only [List.filter_cons, hp, hq, Bool.false_eq_true, if_false]
        exact iht

theorem filter_length_strict {α : Type} {p q : α → Bool} :
    ∀ (l : List α) (x : α), x ∈ l → q x = true → p x = false →
      (∀ y ∈ l, p y = true → q y = true) →
      (l.filter p).length < (l.filter q).length := by
  intro l
  induction l with
  | nil => intro x hx; exact absurd hx (List.not_mem_nil x)
  | cons a t ih =>
    intro x hx hqx hpx h
    have ht : ∀ y ∈ t, p y = true → q y = true :=
      fun y hy => h y (List.mem_cons_of_mem a hy)
    rcases List.mem_cons.mp hx with rfl | hxt
    · simp only [List.filter_cons, hpx, hqx, Bool.false_eq_true, if_false, if_true,
        List.length_cons]
      exact Nat.lt_succ_of_le (filter_length_mono t ht)
    · have iht := ih x hxt hqx hpx ht
      cases hp : p a with
      | true =>
        have hq := h a (List.mem_cons_self _ _) hp
        simp only [List.filter_cons, hp, hq, if_true, List.length_cons]
        exact Nat.succ_lt_succ iht
      | false =>
        cases hq : q a with
        | true =>
          simp only [List.filter_cons, hp, hq, Bool.false_eq_true, if_false, if_true,
            List.length_cons]
          exact Nat.lt_succ_of_lt iht
        | false =>
          simp only [List.filter_cons, hp, hq, Bool.false_eq_true, if_false]
          exact iht

theorem succIncrB_lt {s : Session} {k : Nat} (h : succIncrB s = true)
    (hrb : s.replacedBy = some k) : s.refreshJti < k := by
  rw [succIncrB, hrb] at h
  exact of_decide_eq_true h

theorem reachesN_le_countGe {ss : List Session}
    (hincr : ∀ s ∈ ss, succIncrB s = true) :
    ∀ {n j m : Nat}, ReachesN ss n j m →
      n ≤ (ss.filter (fun s => j ≤ s.refreshJti)).length := by
  intro n j m h
  induction h with
  | refl j => exact Nat.zero_le _
  | @step n j next m s hfind hsucc htail ih =>
    have hjti : s.refreshJti = j := findSession_eq_jti hfind
    have hmem : s ∈ ss := mem_of_findSession hfind
    have hlt : j < next := hjti ▸ succIncrB_lt (hincr s hmem) hsucc
    have hstrict :
        (ss.filter (fun s => next ≤ s.refreshJti)).length <
          (ss.filter (fun s => j ≤ s.refreshJti)).length := by
      apply filter_length_strict ss s
      · exact hmem
      · simp [hjti]
      · simp [hjti]
        omega
      · intro y _ hy
        simp only [decide_eq_true_eq] at hy ⊢
        omega
    exact Nat.lt_of_le_of_lt ih hstrict

theorem reachesN_mem_chain {ss : List Session} :
    ∀ {n j m : Nat} {sm : Session}, ReachesN ss n j m → findSession m ss = some sm →
      ∀ fuel : Nat, n + 1 ≤ fuel → m ∈ chainJtis fuel j ss := by
  intro n j m sm h
  induction h with
  | refl j =>
    intro hfindm fuel hfuel
    match fuel, hfuel with
    | f + 1, _ =>
      cases hrb : sm.replacedBy with
      | some next => simp [chainJtis, hfindm, hrb]
      | none => simp [chainJtis, hfindm, hrb]
  | @step n j next m s hfind hsucc htail ih =>
    intro hfindm fuel hfuel
    match fuel, hfuel with
    | f + 1, _ =>
      simp only [chainJtis, hfind, hsucc]
      exact List.mem_cons_of_mem j (ih hfindm f (by omega))

theorem revoked_in_revokeFamily {st : AuthState}
    (hincr : ∀ s ∈ st.sessions, succIncrB s = true)
    {n j m : Nat} (hreach : ReachesN st.sessions n j m) {s2 : Session}
    (hfind2 : findSession m (revokeFamily j st).sessions = some s2) :
    s2.revoked = true := by
  have hc := findSession_revokeChain (st.sessions.length + 1) j m st.sessions
  rw [revokeFamily] at hfind2
  simp only at hfind2
  rw [hc] at hfind2
  cases hfindm : findSession m st.sessions with
  | none =>
    rw [hfindm] at hfind2
    simp at hfind2
  | some sm =>
    rw [hfindm] at hfind2
    have hn : n ≤ (st.sessions.filter (fun s => j ≤ s.refreshJti)).length :=
      reachesN_le_countGe hincr hreach
    have hlen : (st.sessions.filter (fun s => j ≤ s.refreshJti)).length ≤
        st.sessions.length := List.length_filter_le _ _
    have hmem : m ∈ chainJtis (st.sessions.length + 1) j st.sessions :=
      reachesN_mem_chain hreach hfindm _ (by omega)
    have hjti : sm.refreshJti = m := findSession_eq_jti hfindm
    have hs2 : revokeIfMem (chainJtis (st.sessions.length + 1) j st.sessions) sm = s2 :=
      Option.some.inj hfind2
    rw [revokeIfMem, hjti, if_pos hmem] at hs2
    rw [← hs2]

theorem rotateRefresh_revoked {st : AuthState} {jti : Nat} {s : Session}
    (hfind : findSession jti st.sessions = some s) (hrev : s.revoked = true)
    (sub did : Nat) :
    rotateRefresh (some (.refresh sub jti did)) st =
      (.error (.unauthorized "Token has been revoked"), revokeFamily jti st) := by
  simp [rotateRefresh, hfind, hrev]

/-! ### The claims -/

/-- C1: for every presented refresh token whose session node is revoked and
has a successor (it was retired by a prior rotation), `rotateRefresh` fails
with an unauthorized error and, afterwards, every node reachable from that
node by following successor links forward — including the latest,
never-yet-presented descendant — is revoked, so a subsequent rotate with the
token of any of those descendants also fails. -/
theorem rotate_reuse_cascades (st : AuthState) (hWF : WF st)
    (sub jti did k : Nat) (s : Session)
    (hfind : findSession jti st.sessions = some s)
    (hrev : s.revoked = true) (_hsucc : s.replacedBy = some k) :
    (rotateRefresh (some (.refresh sub jti did)) st).1 =
      .error (.unauthorized "Token has been revoked") ∧
    ∀ n m : Nat, ReachesN st.sessions n jti m →
      ∀ s2, findSession m (rotateRefresh (some (.refresh sub jti did)) st).2.sessions =
          some s2 →
        s2.revoked = true ∧
        ∀ sub2 did2 : Nat,
          (rotateRefresh (some (.refresh sub2 m did2))
            (rotateRefresh (some (.refresh sub jti did)) st).2).1 =
          .error (.unauthorized "Token has been revoked") := by
  have hrot := rotateRefresh_revoked hfind hrev sub did
  rw [hrot]
  refine ⟨rfl, ?_⟩
  intro n m hreach s2 hfind2
  have hrevoked : s2.revoked = true := revoked_in_revokeFamily hWF.incr hreach hfind2
  refine ⟨hrevoked, ?_⟩
  intro sub2 did2
  rw [rotateRefresh_revoked hfind2 hrevoked sub2 did2]

/-- Witness for C1 on a concrete run: after the chain 0 → 1 → 2 is built,
replaying the consumed jti 0 fails and also locks out the still-active tip
jti 2. -/
theorem rotate_reuse_cascades_witness :
    (rotateRefresh (some (Token.refresh 7 0 4)) stChain).1 =
      Except.error (AuthError.unauthorized "Token has been revoked") ∧
    (rotateRefresh (some (Token.refresh 7 2 4))
        (rotateRefresh (some (Token.refresh 7 0 4)) stChain).2).1 =
      Except.error (AuthError.unauthorized "Token has been revoked") := by
  have h12 : ReachesN stChain.sessions 1 1 2 := by
    refine ReachesN.step
      (s := { userId := 7, deviceId := 4, refreshJti := 1, revoked := true,
              replacedBy := some 2 }) ?_ ?_ (ReachesN.refl 2)
    · decide
    · decide
  have hreach : ReachesN stChain.sessions 2 0 2 := by
    refine ReachesN.step
      (s := { userId := 7, deviceId := 4, refreshJti := 0, revoked := true,
              replacedBy := some 1 }) ?_ ?_ h12
    · decide
    · decide
  have h := rotate_reuse_cascades stChain ⟨by decide, by decide, by decide, by decide⟩
    7 0 4 1
    { userId := 7, deviceId := 4, refreshJti := 0, revoked := true, replacedBy := some 1 }
    (by decide) (by decide) (by decide)
  exact ⟨h.1, (h.2 2 2 hreach
    { userId := 7, deviceId := 4, refreshJti := 2, revoked := true, replacedBy := none }
    (by decide)).2 7 4⟩

theorem session_set_revoked_id {s : Session} (h : s.revoked = true) :
    ({ s with revoked := true } : Session) = s := by
  obtain ⟨u, d, jt, rv, rb⟩ := s
  cases h
  rfl

theorem updateRevoke_not_mem {j : Nat} :
    ∀ {ss : List Session}, j ∉ ss.map Session.refreshJti → updateRevoke j ss = ss := by
  intro ss
  induction ss with
  | nil => intro _; rfl
  | cons a t ih =>
    intro h
    have ha : a.refreshJti ≠ j := by
      intro he
      exact h (by simp [he])
    have ht : j ∉ t.map Session.refreshJti := by
      intro hm
      exact h (by simp [hm])
    simp only [updateRevoke, List.map_cons]
    rw [revokeRow, if_neg (by simp [ha])]
    have := ih ht
    rw [updateRevoke] at this
    rw [this]

theorem updateRevoke_id {j : Nat} :
    ∀ {ss : List Session} {s : Session}, (ss.map Session.refreshJti).Nodup →
      findSession j ss = some s → s.revoked = true → updateRevoke j ss = ss := by
  intro ss
  induction ss with
  | nil =>
    intro s _ hfind
    simp [findSession] at hfind
  | cons a t ih =>
    intro s hnd hfind hrev
    rw [List.map_cons, List.nodup_cons] at hnd
    rw [findSession] at hfind
    by_cases hb : (a.refreshJti == j) = true
    · rw [if_pos hb] at hfind
      have hsa : a = s := Option.some.inj hfind
      have hj : a.refreshJti = j := eq_of_beq hb
      have hra : a.revoked = true := by
        rw [hsa]
        exact hrev
      simp only [updateRevoke, List.map_cons]
      rw [revokeRow, if_pos hb, session_set_revoked_id hra]
      have ht : j ∉ t.map Session.refreshJti := hj ▸ hnd.1
      have := updateRevoke_not_mem ht
      rw [updateRevoke] at this
      rw [this]
    · rw [if_neg hb] at hfind
      simp only [updateRevoke, List.map_cons]
      rw [revokeRow, if_neg hb]
      have := ih hnd.2 hfind hrev
      rw [updateRevoke] at this
      rw [this]

/-- C4: for every presented refresh token whose session node was revoked
without a successor (revoked by logout or logout-all, never rotated),
`rotateRefresh` fails with an unauthorized error and leaves the entire state —
in particular every other session node, of the same principal and of all
others — unchanged: the cascade walk stops at the node itself. -/
theorem rotate_after_logout_inert (st : AuthState)
    (hnd : (st.sessions.map Session.refreshJti).Nodup)
    (sub jti did : Nat) (s : Session)
    (hfind : findSession jti st.sessions = some s)
    (hrev : s.revoked = true) (hsucc : s.replacedBy = none) :
    rotateRefresh (some (.refresh sub jti did)) st =
      (.error (.unauthorized "Token has been revoked"), st) := by
  rw [rotateRefresh_revoked hfind hrev sub did]
  have hchain : revokeChain (st.sessions.length + 1) jti st.sessions = st.sessions := by
    simp only [revokeChain, hfind, hsucc]
    exact updateRevoke_id hnd hfind hrev
  rw [revokeFamily, hchain]

/-- Witness for C4 on a concrete run: after login and logout, replaying the
logged-out token fails and the state is untouched. -/
theorem rotate_after_logout_inert_witness :
    rotateRefresh (some (Token.refresh 7 0 4)) stLoggedOut =
      (Except.error (AuthError.unauthorized "Token has been revoked"), stLoggedOut) :=
  rotate_after_logout_inert stLoggedOut (by decide) 7 0 4
    { userId := 7, deviceId := 4, refreshJti := 0, revoked := true, replacedBy := none }
    (by decide) (by decide) (by decide)

/-- C2: the claim says the rotation update fails with `AlreadyRotated` and
leaves the node unchanged whenever a successor is already set.  The code has
no such path: `prisma.session.update` inside `rotateRefresh` is unconditional,
so applied to a node that already carries successor 2 it reports no failure
and silently overwrites the successor with 3 — the parent's link to its first
child is lost.  This theorem evaluates the code at that failing input. -/
theorem rotation_update_overwrites_successor :
    updateRotate 1 3
      [{ userId := 7, deviceId := 4, refreshJti := 1, revoked := true,
         replacedBy := some 2 }] =
      [{ userId := 7, deviceId := 4, refreshJti := 1, revoked := true,
         replacedBy := some 3 }] := by
  decide

/-- C3: the claim says that of two concurrent rotations of the same token
exactly one wins and the loser fails with a reuse error.  Because the
rotation update is unconditional (no `revoked: false` guard), the
read-read-write-write interleaving lets BOTH calls return fresh pairs: both
program counters end in `done`, the parent node's successor is overwritten
from 2 to 3, and session 2 is left active but orphaned (unreachable from the
parent, so a later cascade misses it).  This theorem evaluates the two-thread
model at that schedule. -/
theorem concurrent_rotation_both_succeed :
    runSched 7 1 4 [true, false, true, true, false, false] rotRaceInit = rotRaceFinal := by
  decide

/-- C9: `logout` returns success and never raises on every input — missing,
malformed/expired, wrong-type, or unknown-session tokens leave the state
unchanged; on a valid refresh token with an existing node, the node is marked
revoked with its successor field untouched and all other nodes unchanged. -/
theorem logout_best_effort (st : AuthState) :
    logout none st = (true, st) ∧
    logout (some Token.invalid) st = (true, st) ∧
    (∀ sub : Nat, logout (some (Token.access sub)) st = (true, st)) ∧
    (∀ sub : Nat, logout (some (Token.temp sub)) st = (true, st)) ∧
    (∀ sub jti did : Nat, findSession jti st.sessions = none →
      logout (some (Token.refresh sub jti did)) st = (true, st)) ∧
    (∀ sub jti did : Nat, ∀ s : Session, findSession jti st.sessions = some s →
      (logout (some (Token.refresh sub jti did)) st).1 = true ∧
      findSession jti (logout (some (Token.refresh sub jti did)) st).2.sessions =
        some { s with revoked := true } ∧
      (∀ j : Nat, j ≠ jti →
        findSession j (logout (some (Token.refresh sub jti did)) st).2.sessions =
          findSession j st.sessions)) := by
  refine ⟨rfl, rfl, fun sub => rfl, fun sub => rfl, ?_, ?_⟩
  · intro sub jti did hfind
    simp [logout, hfind]
  · intro sub jti did s hfind
    have hjti : s.refreshJti = jti := findSession_eq_jti hfind
    refine ⟨by simp [logout, hfind], ?_, ?_⟩
    · simp only [logout, hfind]
      rw [updateRevoke, findSession_map (revokeRow_jti jti), hfind]
      simp [revokeRow, hjti]
    · intro j hj
      simp only [logout, hfind]
      rw [updateRevoke, findSession_map (revokeRow_jti jti)]
      cases hfj : findSession j st.sessions with
      | none => rfl
      | some sj =>
        have hsj : sj.refreshJti = j := findSession_eq_jti hfj
        simp [revokeRow, hsj, hj]

/-- Witness for C9 on a concrete run: logout without a token is a no-op
success; logging out jti 0 revokes exactly that node. -/
theorem logout_best_effort_witness :
    logout none stTwoUsers = (true, stTwoUsers) ∧
    findSession 0 (logout (some (Token.refresh 1 0 5)) stTwoUsers).2.sessions =
      some { userId := 1, deviceId := 5, refreshJti := 0, revoked := true,
             replacedBy := none } ∧
    findSession 1 (logout (some (Token.refresh 1 0 5)) stTwoUsers).2.sessions =
      findSession 1 stTwoUsers.sessions := by
  have h := logout_best_effort stTwoUsers
  have h6 := h.2.2.2.2.2 1 0 5
    { userId := 1, deviceId := 5, refreshJti := 0, revoked := false, replacedBy := none }
    (by decide)
  exact ⟨h.1, h6.2.1, h6.2.2 1 (by decide)⟩

/-- C7: `logoutAllDevices(uid)` revokes every non-revoked session of the
principal and returns the affected count; afterwards rotating any of the
principal's tokens fails with an unauthorized error, while every session node
of any other principal is left exactly as it was. -/
theorem logoutAll_revokes_principal (st : AuthState) (uid : Nat) :
    (logoutAllDevices uid st).1 = (st.sessions.filter (ownedActive uid)).length ∧
    (∀ j : Nat, ∀ s2 : Session,
      findSession j (logoutAllDevices uid st).2.sessions = some s2 →
      s2.userId = uid → s2.revoked = true) ∧
    (∀ j : Nat, ∀ s2 : Session,
      findSession j (logoutAllDevices uid st).2.sessions = some s2 → s2.userId = uid →
      ∀ sub did : Nat,
        (rotateRefresh (some (Token.refresh sub j did)) (logoutAllDevices uid st).2).1 =
          Except.error (AuthError.unauthorized "Token has been revoked")) ∧
    (∀ j : Nat, ∀ s : Session, findSession j st.sessions = some s → s.userId ≠ uid →
      findSession j (logoutAllDevices uid st).2.sessions = some s) := by
  have hmap := findSession_map (logoutAllRow_jti uid)
  have hrevoked : ∀ j : Nat, ∀ s2 : Session,
      findSession j (logoutAllDevices uid st).2.sessions = some s2 →
      s2.userId = uid → s2.revoked = true := by
    intro j s2 hfind2 huid
    simp only [logoutAllDevices] at hfind2
    rw [hmap j st.sessions] at hfind2
    cases hfj : findSession j st.sessions with
    | none =>
      rw [hfj] at hfind2
      simp at hfind2
    | some s0 =>
      rw [hfj] at hfind2
      have hs2 : logoutAllRow uid s0 = s2 := Option.some.inj hfind2
      by_cases hoa : ownedActive uid s0 = true
      · rw [logoutAllRow, if_pos hoa] at hs2
        rw [← hs2]
      · rw [logoutAllRow, if_neg hoa] at hs2
        subst hs2
        rw [ownedActive] at hoa
        simp only [Bool.and_eq_true, beq_iff_eq, not_and] at hoa
        cases hrv : s0.revoked with
        | true => rfl
        | false => exact absurd (hrv ▸ rfl) (fun h2 => (hoa huid) h2)
  refine ⟨rfl, hrevoked, ?_, ?_⟩
  · intro j s2 hfind2 huid sub did
    rw [rotateRefresh_revoked hfind2 (hrevoked j s2 hfind2 huid) sub did]
  · intro j s hfj hne
    simp only [logoutAllDevices]
    rw [hmap j st.sessions, hfj]
    have hrow : logoutAllRow uid s = s := by
      rw [logoutAllRow, if_neg]
      rw [ownedActive]
      simp [hne]
    show some (logoutAllRow uid s) = some s
    rw [hrow]

/-- Witness for C7 on a concrete run: principal 1 has sessions 0 and 1,
principal 2 has session 2; logout-all for principal 1 reports 2 revoked
sessions, the replay of jti 0 fails, and principal 2's node is untouched. -/
theorem logoutAll_revokes_principal_witness :
    (logoutAllDevices 1 stTwoUsers).1 = 2 ∧
    (rotateRefresh (some (Token.refresh 1 0 5)) (logoutAllDevices 1 stTwoUsers).2).1 =
      Except.error (AuthError.unauthorized "Token has been revoked") ∧
    findSession 2 (logoutAllDevices 1 stTwoUsers).2.sessions =
      some { userId := 2, deviceId := 5, refreshJti := 2, revoked := false,
             replacedBy := none } := by
  have h := logoutAll_revokes_principal stTwoUsers 1
  exact ⟨h.1.trans (by decide),
    h.2.2.1 0
      { userId := 1, deviceId := 5, refreshJti := 0, revoked := true, replacedBy := none }
      (by decide) rfl 1 5,
    h.2.2.2 2
      { userId := 2, deviceId := 5, refreshJti := 2, revoked := false, replacedBy := none }
      (by decide) (by decide)⟩

theorem mono_refl (ss : List Session) : Mono ss ss :=
  fun _ s h => ⟨s, h, fun hr => hr⟩

theorem mono_trans {a b c : List Session} (h1 : Mono a b) (h2 : Mono b c) : Mono a c := by
  intro j s hfind
  obtain ⟨s2, hfind2, hrev2⟩ := h1 j s hfind
  obtain ⟨s3, hfind3, hrev3⟩ := h2 j s2 hfind2
  exact ⟨s3, hfind3, fun hr => hrev3 (hrev2 hr)⟩

theorem mono_map {f : Session → Session} (hj : ∀ s, (f s).refreshJti = s.refreshJti)
    (hm : ∀ s : Session, s.revoked = true → (f s).revoked = true) (ss : List Session) :
    Mono ss (ss.map f) := by
  intro j s hfind
  refine ⟨f s, ?_, hm s⟩
  rw [findSession_map hj, hfind]
  rfl

theorem mono_append (ss l : List Session) : Mono ss (ss ++ l) :=
  fun _ s h => ⟨s, findSession_append_some h l, fun hr => hr⟩

theorem mono_revokeFamily (j : Nat) (st : AuthState) :
    Mono st.sessions (revokeFamily j st).sessions := by
  rw [revokeFamily]
  show Mono st.sessions (revokeChain (st.sessions.length + 1) j st.sessions)
  rw [revokeChain_eq_map]
  exact mono_map (revokeIfMem_jti _) (fun _ => revokeIfMem_revoked_mono) st.sessions

theorem mono_applyOp (op : Op) (st : AuthState) :
    Mono st.sessions (applyOp op st).sessions := by
  cases op with
  | issueTok u d => exact mono_append st.sessions _
  | rotate tok =>
    cases tok with
    | none => exact mono_refl st.sessions
    | some t =>
      cases t with
      | invalid => exact mono_refl st.sessions
      | access sub => exact mono_refl st.sessions
      | temp sub => exact mono_refl st.sessions
      | refresh sub jti did =>
        show Mono st.sessions (rotateRefresh (some (.refresh sub jti did)) st).2.sessions
        cases hfind : findSession jti st.sessions with
        | none =>
          simp only [rotateRefresh, hfind]
          exact mono_refl st.sessions
        | some s =>
          cases hrev : s.revoked with
          | true =>
            simp only [rotateRefresh, hfind, hrev, if_true]
            exact mono_revokeFamily jti st
          | false =>
            simp only [rotateRefresh, hfind, hrev, Bool.false_eq_true, if_false]
            exact mono_trans (mono_append st.sessions _)
              (mono_map (rotateRow_jti _ _) (fun _ => rotateRow_revoked_mono) _)
  | doLogout tok =>
    cases tok with
    | none => exact mono_refl st.sessions
    | some t =>
      cases t with
      | invalid => exact mono_refl st.sessions
      | access sub => exact mono_refl st.sessions
      | temp sub => exact mono_refl st.sessions
      | refresh sub jti did =>
        show Mono st.sessions (logout (some (.refresh sub jti did)) st).2.sessions
        cases hfind : findSession jti st.sessions with
        | none =>
          simp only [logout, hfind]
          exact mono_refl st.sessions
        | some s =>
          simp only [logout, hfind]
          exact mono_map (revokeRow_jti _) (fun _ => revokeRow_revoked_mono) st.sessions
  | logoutAll u =>
    exact mono_map (logoutAllRow_jti _) (fun _ => logoutAllRow_revoked_mono) st.sessions
  | revokeFam j => exact mono_revokeFamily j st

theorem mono_applyOps (ops : List Op) :
    ∀ st : AuthState, Mono st.sessions (applyOps ops st).sessions := by
  induction ops with
  | nil => intro st; exact mono_refl st.sessions
  | cons op rest ih =>
    intro st
    exact mono_trans (mono_applyOp op st) (ih (applyOp op st))

/-- C5: every successful rotation returns a pair whose new refresh token
carries a jti different from the presented token's jti (it is the fresh draw,
strictly above every stored jti), and every subsequent `rotateRefresh` call
presenting the old jti — after any further sequence of operations — fails
with an unauthorized error. -/
theorem rotate_fresh_jti_old_fails (st : AuthState) (hWF : WF st)
    (sub jti did : Nat) (pair : Token × Token) (st2 : AuthState)
    (hrot : rotateRefresh (some (.refresh sub jti did)) st = (.ok pair, st2)) :
    decodeJti pair.2 = some st.nextJti ∧ st.nextJti ≠ jti ∧
    ∀ (ops : List Op) (sub2 did2 : Nat),
      (rotateRefresh (some (.refresh sub2 jti did2)) (applyOps ops st2)).1 =
        .error (.unauthorized "Token has been revoked") := by
  cases hfind : findSession jti st.sessions with
  | none => simp [rotateRefresh, hfind] at hrot
  | some s =>
    cases hrev : s.revoked with
    | true => simp [rotateRefresh, hfind, hrev] at hrot
    | false =>
      simp only [rotateRefresh, hfind, hrev, Bool.false_eq_true, if_false] at hrot
      have hpair := congrArg Prod.fst hrot
      have hst2 := congrArg Prod.snd hrot
      simp only at hpair hst2
      have hpair2 : pair = (Token.access sub, Token.refresh sub st.nextJti did) := by
        cases hpair
        rfl
      have hjlt : jti < st.nextJti := by
        have := hWF.bounded s (mem_of_findSession hfind)
        rw [findSession_eq_jti hfind] at this
        exact this
      refine ⟨by rw [hpair2]; rfl, by omega, ?_⟩
      intro ops sub2 did2
      have hbase : findSession jti st2.sessions =
          some { s with revoked := true, replacedBy := some st.nextJti } := by
        rw [← hst2]
        show findSession jti
          (updateRotate jti st.nextJti (st.sessions ++ [_])) = _
        rw [updateRotate, findSession_map (rotateRow_jti _ _),
          findSession_append_some hfind]
        show some (rotateRow jti st.nextJti s) = _
        rw [rotateRow, if_pos (by simp [findSession_eq_jti hfind])]
      obtain ⟨s2, hfind2, hrev2⟩ := mono_applyOps ops st2 jti _ hbase
      rw [rotateRefresh_revoked hfind2 (hrev2 rfl) sub2 did2]

/-- Witness for C5 on a concrete run: rotating jti 0 returns refresh jti 1,
and replaying jti 0 afterwards (even after an unrelated further operation)
fails. -/
theorem rotate_fresh_jti_old_fails_witness :
    decodeJti (Token.refresh 7 1 4) = some 1 ∧ (1 : Nat) ≠ 0 ∧
    (rotateRefresh (some (Token.refresh 9 0 5))
        (applyOps [Op.issueTok 8 2] stOneRotated)).1 =
      Except.error (AuthError.unauthorized "Token has been revoked") := by
  have h := rotate_fresh_jti_old_fails stOne ⟨by decide, by decide, by decide, by decide⟩
    7 0 4 (Token.access 7, Token.refresh 7 1 4) stOneRotated (by rfl)
  exact ⟨h.1, h.2.1, h.2.2 [Op.issueTok 8 2] 9 5⟩

theorem all_map_of_all {α : Type} {p : α → Bool} {f : α → α} {l : List α}
    (hf : ∀ x : α, p x = true → p (f x) = true) (h : l.all p = true) :
    (l.map f).all p = true := by
  induction l with
  | nil => rfl
  | cons a t ih =>
    rw [List.all_cons, Bool.and_eq_true] at h
    rw [List.map_cons, List.all_cons, Bool.and_eq_true]
    exact ⟨hf a h.1, ih h.2⟩

theorem goodRow_revokeRow (j : Nat) (s : Session)
    (h : (s.revoked || s.replacedBy.isNone) = true) :
    ((revokeRow j s).revoked || (revokeRow j s).replacedBy.isNone) = true := by
  rw [revokeRow]
  split
  · simp
  · exact h

theorem goodRow_rotateRow (j n : Nat) (s : Session)
    (h : (s.revoked || s.replacedBy.isNone) = true) :
    ((rotateRow j n s).revoked || (rotateRow j n s).replacedBy.isNone) = true := by
  rw [rotateRow]
  split
  · simp
  · exact h

theorem goodRow_logoutAllRow (u : Nat) (s : Session)
    (h : (s.revoked || s.replacedBy.isNone) = true) :
    ((logoutAllRow u s).revoked || (logoutAllRow u s).replacedBy.isNone) = true := by
  rw [logoutAllRow]
  split
  · simp
  · exact h

theorem goodRow_revokeIfMem (c : List Nat) (s : Session)
    (h : (s.revoked || s.replacedBy.isNone) = true) :
    ((revokeIfMem c s).revoked || (revokeIfMem c s).replacedBy.isNone) = true := by
  rw [revokeIfMem]
  split
  · simp
  · exact h

theorem inv_revokeFamily (j : Nat) (st : AuthState) (h : invariantB st = true) :
    invariantB (revokeFamily j st) = true := by
  show (revokeChain (st.sessions.length + 1) j st.sessions).all _ = true
  rw [revokeChain_eq_map]
  exact all_map_of_all (goodRow_revokeIfMem _) h

theorem inv_applyOp (op : Op) (st : AuthState) (h : invariantB st = true) :
    invariantB (applyOp op st) = true := by
  cases op with
  | issueTok u d =>
    show (st.sessions ++
      [({ userId := u, deviceId := d, refreshJti := st.nextJti, revoked := false,
          replacedBy := none } : Session)]).all _ = true
    rw [List.all_append, Bool.and_eq_true]
    exact ⟨h, by rfl⟩
  | rotate tok =>
    cases tok with
    | none => exact h
    | some t =>
      cases t with
      | invalid => exact h
      | access sub => exact h
      | temp sub => exact h
      | refresh sub jti did =>
        show invariantB (rotateRefresh (some (.refresh sub jti did)) st).2 = true
        cases hfind : findSession jti st.sessions with
        | none =>
          simp only [rotateRefresh, hfind]
          exact h
        | some s =>
          cases hrev : s.revoked with
          | true =>
            simp only [rotateRefresh, hfind, hrev, if_true]
            exact inv_revokeFamily jti st h
          | false =>
            simp only [rotateRefresh, hfind, hrev, Bool.false_eq_true, if_false]
            show (updateRotate jti _ (st.sessions ++ [_])).all _ = true
            rw [updateRotate]
            refine all_map_of_all (goodRow_rotateRow _ _) ?_
            rw [List.all_append, Bool.and_eq_true]
            exact ⟨h, by rfl⟩
  | doLogout tok =>
    cases tok with
    | none => exact h
    | some t =>
      cases t with
      | invalid => exact h
      | access sub => exact h
      | temp sub => exact h
      | refresh sub jti did =>
        show invariantB (logout (some (.refresh sub jti did)) st).2 = true
        cases hfind : findSession jti st.sessions with
        | none =>
          simp only [logout, hfind]
          exact h
        | some s =>
          simp only [logout, hfind]
          show (updateRevoke jti st.sessions).all _ = true
          rw [updateRevoke]
          exact all_map_of_all (goodRow_revokeRow _) h
  | logoutAll u =>
    show (st.sessions.map (logoutAllRow u)).all _ = true
    exact all_map_of_all (goodRow_logoutAllRow _) h
  | revokeFam j => exact inv_revokeFamily j st h

theorem inv_applyOps (ops : List Op) :
    ∀ st : AuthState, invariantB st = true → invariantB (applyOps ops st) = true := by
  induction ops with
  | nil => intro st h; exact h
  | cons op rest ih =>
    intro st h
    exact ih (applyOp op st) (inv_applyOp op st h)

theorem find_after_revokeFamily (j p : Nat) (st : AuthState) :
    findSession j (revokeFamily p st).sessions =
      (findSession j st.sessions).map
        (revokeIfMem (chainJtis (st.sessions.length + 1) p st.sessions)) := by
  show findSession j (revokeChain (st.sessions.length + 1) p st.sessions) = _
  exact findSession_revokeChain _ p j st.sessions

theorem findSession_map_replacedBy {f : Session → Session}
    (hj : ∀ s, (f s).refreshJti = s.refreshJti)
    (hr : ∀ s, (f s).replacedBy = s.replacedBy) (j : Nat) (ss : List Session) :
    (findSession j (ss.map f)).map Session.replacedBy =
      (findSession j ss).map Session.replacedBy := by
  rw [findSession_map hj]
  cases findSession j ss with
  | none => rfl
  | some s =>
    show some (f s).replacedBy = some s.replacedBy
    rw [hr s]

theorem issueTokens_sessions (u d : Nat) (st : AuthState) :
    (issueTokens u d st).2.sessions = st.sessions ++
      [({ userId := u, deviceId := d, refreshJti := st.nextJti, revoked := false,
          replacedBy := none } : Session)] := rfl

theorem inv_found_revoked {st : AuthState} {j k : Nat} {s : Session}
    (hinv : invariantB st = true) (hfind : findSession j st.sessions = some s)
    (hrb : s.replacedBy = some k) : s.revoked = true := by
  have hmem := mem_of_findSession hfind
  rw [invariantB] at hinv
  have hall := List.all_eq_true.mp hinv s hmem
  rw [hrb] at hall
  simpa using hall

theorem succStable (st : AuthState) (op : Op) (hinv : invariantB st = true)
    (j k : Nat) (s s2 : Session)
    (hfind : findSession j st.sessions = some s)
    (hfind2 : findSession j (applyOp op st).sessions = some s2)
    (hrb : s.replacedBy = some k) :
    s2.replacedBy = some k ∧ s2.revoked = true := by
  have hrev : s.revoked = true := inv_found_revoked hinv hfind hrb
  cases op with
  | issueTok u d =>
    have h2 : findSession j ((issueTokens u d st).2.sessions) = some s2 := hfind2
    rw [issueTokens_sessions, findSession_append_some hfind] at h2
    have hs : s = s2 := Option.some.inj h2
    rw [← hs]
    exact ⟨hrb, hrev⟩
  | rotate tok =>
    cases tok with
    | none =>
      have h2 : findSession j st.sessions = some s2 := hfind2
      rw [hfind] at h2
      have hs : s = s2 := Option.some.inj h2
      rw [← hs]
      exact ⟨hrb, hrev⟩
    | some t =>
      cases t with
      | invalid =>
        have h2 : findSession j st.sessions = some s2 := hfind2
        rw [hfind] at h2
        have hs : s = s2 := Option.some.inj h2
        rw [← hs]
        exact ⟨hrb, hrev⟩
      | access sub =>
        have h2 : findSession j st.sessions = some s2 := hfind2
        rw [hfind] at h2
        have hs : s = s2 := Option.some.inj h2
        rw [← hs]
        exact ⟨hrb, hrev⟩
      | temp sub =>
        have h2 : findSession j st.sessions = some s2 := hfind2
        rw [hfind] at h2
        have hs : s = s2 := Option.some.inj h2
        rw [← hs]
        exact ⟨hrb, hrev⟩
      | refresh sub p did =>
        cases hfp : findSession p st.sessions with
        | none =>
          simp only [applyOp, rotateRefresh, hfp] at hfind2
          rw [hfind] at hfind2
          have hs : s = s2 := Option.some.inj hfind2
          rw [← hs]
          exact ⟨hrb, hrev⟩
        | some sp =>
          cases hrevp : sp.revoked with
          | true =>
            simp only [applyOp, rotateRefresh, hfp, hrevp, if_true] at hfind2
            rw [find_after_revokeFamily, hfind] at hfind2
            have hs : revokeIfMem _ s = s2 := Option.some.inj hfind2
            rw [← hs]
            refine ⟨?_, revokeIfMem_revoked_mono hrev⟩
            rw [revokeIfMem_replacedBy]
            exact hrb
          | false =>
            simp only [applyOp, rotateRefresh, hfp, hrevp, Bool.false_eq_true, if_false]
              at hfind2
            rw [updateRotate, findSession_map (rotateRow_jti _ _), issueTokens_sessions,
              findSession_append_some hfind] at hfind2
            have hs : rotateRow p _ s = s2 := Option.some.inj hfind2
            by_cases hpj : (s.refreshJti == p) = true
            · have hj := findSession_eq_jti hfind
              have hjp : j = p := by
                rw [← hj]
                exact eq_of_beq hpj
              rw [← hjp] at hfp
              rw [hfind] at hfp
              have hsp : s = sp := Option.some.inj hfp
              rw [← hsp] at hrevp
              rw [hrevp] at hrev
              exact absurd hrev (by decide)
            · rw [rotateRow, if_neg hpj] at hs
              rw [← hs]
              exact ⟨hrb, hrev⟩
  | doLogout tok =>
    cases tok with
    | none =>
      have h2 : findSession j st.sessions = some s2 := hfind2
      rw [hfind] at h2
      have hs : s = s2 := Option.some.inj h2
      rw [← hs]
      exact ⟨hrb, hrev⟩
    | some t =>
      cases t with
      | invalid =>
        have h2 : findSession j st.sessions = some s2 := hfind2
        rw [hfind] at h2
        have hs : s = s2 := Option.some.inj h2
        rw [← hs]
        exact ⟨hrb, hrev⟩
      | access sub =>
        have h2 : findSession j st.sessions = some s2 := hfind2
        rw [hfind] at h2
        have hs : s = s2 := Option.some.inj h2
        rw [← hs]
        exact ⟨hrb, hrev⟩
      | temp sub =>
        have h2 : findSession j st.sessions = some s2 := hfind2
        rw [hfind] at h2
        have hs : s = s2 := Option.some.inj h2
        rw [← hs]
        exact ⟨hrb, hrev⟩
      | refresh sub p did =>
        cases hfp : findSession p st.sessions with
        | none =>
          simp only [applyOp, logout, hfp] at hfind2
          rw [hfind] at hfind2
          have hs : s = s2 := Option.some.inj hfind2
          rw [← hs]
          exact ⟨hrb, hrev⟩
        | some sp =>
          simp only [applyOp, logout, hfp] at hfind2
          rw [updateRevoke, findSession_map (revokeRow_jti _), hfind] at hfind2
          have hs : revokeRow p s = s2 := Option.some.inj hfind2
          rw [← hs]
          refine ⟨?_, revokeRow_revoked_mono hrev⟩
          rw [revokeRow_replacedBy]
          exact hrb
  | logoutAll u =>
    have h2 : findSession j (st.sessions.map (logoutAllRow u)) = some s2 := hfind2
    rw [findSession_map (logoutAllRow_jti u), hfind] at h2
    have hs : logoutAllRow u s = s2 := Option.some.inj h2
    rw [← hs]
    refine ⟨?_, logoutAllRow_revoked_mono hrev⟩
    rw [logoutAllRow_replacedBy]
    exact hrb
  | revokeFam p =>
    have h2 : findSession j (revokeFamily p st).sessions = some s2 := hfind2
    rw [find_after_revokeFamily, hfind] at h2
    have hs : revokeIfMem _ s = s2 := Option.some.inj h2
    rw [← hs]
    refine ⟨?_, revokeIfMem_revoked_mono hrev⟩
    rw [revokeIfMem_replacedBy]
    exact hrb

theorem nonRotating_no_successor (st : AuthState) (op : Op)
    (hop : nonRotating op = true) (j : Nat) :
    (findSession j (applyOp op st).sessions).map Session.replacedBy =
      (findSession j st.sessions).map Session.replacedBy := by
  cases op with
  | issueTok u d => simp [nonRotating] at hop
  | rotate tok => simp [nonRotating] at hop
  | doLogout tok =>
    cases tok with
    | none => rfl
    | some t =>
      cases t with
      | invalid => rfl
      | access sub => rfl
      | temp sub => rfl
      | refresh sub p did =>
        cases hfp : findSession p st.sessions with
        | none =>
          simp only [applyOp, logout, hfp]
        | some sp =>
          simp only [applyOp, logout, hfp]
          exact findSession_map_replacedBy (revokeRow_jti p) (revokeRow_replacedBy p)
            j st.sessions
  | logoutAll u =>
    exact findSession_map_replacedBy (logoutAllRow_jti u) (logoutAllRow_replacedBy u)
      j st.sessions
  | revokeFam p =>
    show (findSession j (revokeFamily p st).sessions).map Session.replacedBy = _
    rw [find_after_revokeFamily]
    cases findSession j st.sessions with
    | none => rfl
    | some s =>
      show some (revokeIfMem _ s).replacedBy = some s.replacedBy
      rw [revokeIfMem_replacedBy]

theorem succOnlyRotation (st : AuthState) (op : Op) (j k : Nat) (s s2 : Session)
    (hfind : findSession j st.sessions = some s) (hrb : s.replacedBy = none)
    (hfind2 : findSession j (applyOp op st).sessions = some s2)
    (hrb2 : s2.replacedBy = some k) :
    (∃ sub did : Nat, op = Op.rotate (some (Token.refresh sub j did))) ∧
      s2.revoked = true := by
  cases op with
  | issueTok u d =>
    have h2 : findSession j ((issueTokens u d st).2.sessions) = some s2 := hfind2
    rw [issueTokens_sessions, findSession_append_some hfind] at h2
    have hs : s = s2 := Option.some.inj h2
    rw [← hs, hrb] at hrb2
    exact Option.noConfusion hrb2
  | rotate tok =>
    cases tok with
    | none =>
      have h2 : findSession j st.sessions = some s2 := hfind2
      rw [hfind] at h2
      have hs : s = s2 := Option.some.inj h2
      rw [← hs, hrb] at hrb2
      exact Option.noConfusion hrb2
    | some t =>
      cases t with
      | invalid =>
        have h2 : findSession j st.sessions = some s2 := hfind2
        rw [hfind] at h2
        have hs : s = s2 := Option.some.inj h2
        rw [← hs, hrb] at hrb2
        exact Option.noConfusion hrb2
      | access sub =>
        have h2 : findSession j st.sessions = some s2 := hfind2
        rw [hfind] at h2
        have hs : s = s2 := Option.some.inj h2
        rw [← hs, hrb] at hrb2
        exact Option.noConfusion hrb2
      | temp sub =>
        have h2 : findSession j st.sessions = some s2 := hfind2
        rw [hfind] at h2
        have hs : s = s2 := Option.some.inj h2
        rw [← hs, hrb] at hrb2
        exact Option.noConfusion hrb2
      | refresh sub p did =>
        cases hfp : findSession p st.sessions with
        | none =>
          simp only [applyOp, rotateRefresh, hfp] at hfind2
          rw [hfind] at hfind2
          have hs : s = s2 := Option.some.inj hfind2
          rw [← hs, hrb] at hrb2
          exact Option.noConfusion hrb2
        | some sp =>
          cases hrevp : sp.revoked with
          | true =>
            simp only [applyOp, rotateRefresh, hfp, hrevp, if_true] at hfind2
            rw [find_after_revokeFamily, hfind] at hfind2
            have hs : revokeIfMem _ s = s2 := Option.some.inj hfind2
            rw [← hs, revokeIfMem_replacedBy, hrb] at hrb2
            exact Option.noConfusion hrb2
          | false =>
            simp only [applyOp, rotateRefresh, hfp, hrevp, Bool.false_eq_true, if_false]
              at hfind2
            rw [updateRotate, findSession_map (rotateRow_jti _ _), issueTokens_sessions,
              findSession_append_some hfind] at hfind2
            have hs : rotateRow p _ s = s2 := Option.some.inj hfind2
            by_cases hpj : (s.refreshJti == p) = true
            · have hj := findSession_eq_jti hfind
              have hjp : j = p := by
                rw [← hj]
                exact eq_of_beq hpj
              refine ⟨⟨sub, did, by rw [hjp]⟩, ?_⟩
              rw [← hs, rotateRow, if_pos hpj]
            · rw [rotateRow, if_neg hpj] at hs
              rw [← hs, hrb] at hrb2
              exact Option.noConfusion hrb2
  | doLogout tok =>
    have h2 := nonRotating_no_successor st (Op.doLogout tok) rfl j
    rw [hfind, hfind2] at h2
    have : s2.replacedBy = s.replacedBy := Option.some.inj h2
    rw [this, hrb] at hrb2
    exact Option.noConfusion hrb2
  | logoutAll u =>
    have h2 := nonRotating_no_successor st (Op.logoutAll u) rfl j
    rw [hfind, hfind2] at h2
    have : s2.replacedBy = s.replacedBy := Option.some.inj h2
    rw [this, hrb] at hrb2
    exact Option.noConfusion hrb2
  | revokeFam p =>
    have h2 := nonRotating_no_successor st (Op.revokeFam p) rfl j
    rw [hfind, hfind2] at h2
    have : s2.replacedBy = s.replacedBy := Option.some.inj h2
    rw [this, hrb] at hrb2
    exact Option.noConfusion hrb2

/-- C6: in every state reachable by any sequence of the service's operations,
an unrevoked node has no successor; a node's successor, once set, is never
changed and the node stays revoked; logout, logout-all and cascade revocation
never touch any node's successor; and a successor can only appear on a node
through a `rotateRefresh` of that very jti, which simultaneously marks the
node revoked. -/
theorem session_graph_invariant :
    (∀ ops : List Op, invariantB (runOps ops) = true) ∧
    (∀ (st : AuthState) (op : Op), invariantB st = true →
      ∀ (j k : Nat) (s s2 : Session), findSession j st.sessions = some s →
        findSession j (applyOp op st).sessions = some s2 → s.replacedBy = some k →
        s2.replacedBy = some k ∧ s2.revoked = true) ∧
    (∀ (st : AuthState) (op : Op), nonRotating op = true → ∀ j : Nat,
      (findSession j (applyOp op st).sessions).map Session.replacedBy =
        (findSession j st.sessions).map Session.replacedBy) ∧
    (∀ (st : AuthState) (op : Op) (j k : Nat) (s s2 : Session),
      findSession j st.sessions = some s → s.replacedBy = none →
      findSession j (applyOp op st).sessions = some s2 → s2.replacedBy = some k →
      (∃ sub did : Nat, op = Op.rotate (some (Token.refresh sub j did))) ∧
        s2.revoked = true) := by
  refine ⟨?_, ?_, ?_, ?_⟩
  · intro ops
    exact inv_applyOps ops initState rfl
  · intro st op hinv j k s s2 hfind hfind2 hrb
    exact succStable st op hinv j k s s2 hfind hfind2 hrb
  · intro st op hop j
    exact nonRotating_no_successor st op hop j
  · intro st op j k s s2 hfind hrb hfind2 hrb2
    exact succOnlyRotation st op j k s s2 hfind hrb hfind2 hrb2

/-- Witness for C6 on a concrete run: the reachable chain state satisfies the
invariant, and logging out the rotated node 0 of that state keeps its
successor link to node 1 intact while the node stays revoked. -/
theorem session_graph_invariant_witness :
    invariantB stChain = true ∧
    ({ userId := 7, deviceId := 4, refreshJti := 0, revoked := true,
       replacedBy := some 1 } : Session).replacedBy = some 1 ∧
    ({ userId := 7, deviceId := 4, refreshJti := 0, revoked := true,
       replacedBy := some 1 } : Session).revoked = true := by
  have h1 := session_graph_invariant.1
    [Op.issueTok 7 4, Op.rotate (some (Token.refresh 7 0 4)),
     Op.rotate (some (Token.refresh 7 1 4))]
  have h2 := session_graph_invariant.2.1 stChain
    (Op.doLogout (some (Token.refresh 7 0 4))) (by decide) 0 1
    { userId := 7, deviceId := 4, refreshJti := 0, revoked := true, replacedBy := some 1 }
    { userId := 7, deviceId := 4, refreshJti := 0, revoked := true, replacedBy := some 1 }
    (by decide) (by decide) (by decide)
  exact ⟨h1, h2.1, h2.2⟩

/-- C8: for every registered principal with the second factor enabled (the
code's condition: `twoFAEnabled` set and a TOTP secret stored), login with the
correct email and password returns a 2FA challenge carrying a temp token —
not a token pair — and creates no session node (only the informational device
row is touched); the pair, together with its session node, is issued only by
`verify2FA` with a valid code, while an invalid code fails and changes
nothing. -/
theorem login_2fa_challenge (st : SysState) (email password : String) (did : Nat)
    (u : User) (secret : String)
    (hemail : email ≠ "") (hpw : password ≠ "")
    (hfind : findUserByEmail email st.users = some u)
    (hcmp : bcryptCompare password u.passwordHash = true)
    (h2fa : u.twoFAEnabled = true) (hsec : u.totpSecret = some secret) :
    login email password did st =
      (.ok (.challenge (Token.temp u.id)),
       { st with devices := upsertDevice u.id did st.devices }) ∧
    (∀ (code : String) (st2 : SysState), code ≠ "" →
      findUserById u.id st2.users = some u →
      (totpCheck code secret = true →
        verify2FA (some (Token.temp u.id)) code did st2 =
          (.ok (sanitizeUser u, (issueTokens u.id did st2.auth).1.1,
            (issueTokens u.id did st2.auth).1.2),
           { st2 with auth := (issueTokens u.id did st2.auth).2 })) ∧
      (totpCheck code secret = false →
        verify2FA (some (Token.temp u.id)) code did st2 =
          (.error (.unauthorized "Invalid 2FA code"), st2))) := by
  constructor
  · have hc : (email == "" || password == "") = false := by simp [hemail, hpw]
    have hsome : u.totpSecret.isSome = true := by
      rw [hsec]
      rfl
    simp [login, hc, hfind, hcmp, h2fa, hsome, signTemp]
  · intro code st2 hcode hfind2
    have hc2 : (code == "") = false := by simp [hcode]
    constructor
    · intro hchk
      simp [verify2FA, hc2, hfind2, hsec, h2fa, hchk]
    · intro hchk
      simp [verify2FA, hc2, hfind2, hsec, h2fa, hchk]

/-- Witness for C8 on a concrete principal: password-correct login returns
the challenge, the right code completes login with a pair, the wrong code
fails. -/
theorem login_2fa_challenge_witness :
    login "bee@example.com" "correcthorse" 9 exSys =
      (Except.ok (LoginResult.challenge (Token.temp 3)),
       { exSys with devices := upsertDevice 3 9 exSys.devices }) ∧
    verify2FA (some (Token.temp 3)) "JBSWY3DP" 9 exSys =
      (Except.ok (sanitizeUser exUser2FA, (issueTokens 3 9 exSys.auth).1.1,
        (issueTokens 3 9 exSys.auth).1.2),
       { exSys with auth := (issueTokens 3 9 exSys.auth).2 }) ∧
    verify2FA (some (Token.temp 3)) "WRONG" 9 exSys =
      (Except.error (AuthError.unauthorized "Invalid 2FA code"), exSys) := by
  have h := login_2fa_challenge exSys "bee@example.com" "correcthorse" 9 exUser2FA
    "JBSWY3DP" (by decide) (by decide) (by decide) (by decide) (by decide) (by decide)
  have h2 := h.2 "JBSWY3DP" exSys (by decide) (by decide)
  have h3 := h.2 "WRONG" exSys (by decide) (by decide)
  exact ⟨h.1, h2.1 (by decide), h3.2 (by decide)⟩

theorem sanitizeUser_omits (u : User) :
    lookupField "passwordHash" (sanitizeUser u) = none ∧
    lookupField "totpSecret" (sanitizeUser u) = none :=
  ⟨rfl, rfl⟩

/-- C10: every user object handed back to a caller — by `register`, by
`login`'s token branch, by `verify2FA`, and by `getUserById` — omits the
`passwordHash` and `totpSecret` fields, whatever the stored principal record
holds; the non-sensitive fields survive sanitisation. -/
theorem returned_users_omit_secrets :
    (∀ u : User, lookupField "passwordHash" (sanitizeUser u) = none ∧
      lookupField "totpSecret" (sanitizeUser u) = none ∧
      lookupField "email" (sanitizeUser u) = some (JsVal.str u.email) ∧
      lookupField "id" (sanitizeUser u) = some (JsVal.nat u.id)) ∧
    (∀ (e p d : String) (a : Nat) (st : SysState) (obj : List (String × JsVal))
      (st2 : SysState), register e p d a st = (.ok obj, st2) →
      lookupField "passwordHash" obj = none ∧ lookupField "totpSecret" obj = none) ∧
    (∀ (e p : String) (did : Nat) (st : SysState) (obj : List (String × JsVal))
      (a1 r1 : Token) (st2 : SysState),
      login e p did st = (.ok (.tokens obj a1 r1), st2) →
      lookupField "passwordHash" obj = none ∧ lookupField "totpSecret" obj = none) ∧
    (∀ (tk : Option Token) (code : String) (did : Nat) (st : SysState)
      (obj : List (String × JsVal)) (a1 r1 : Token) (st2 : SysState),
      verify2FA tk code did st = (.ok (obj, a1, r1), st2) →
      lookupField "passwordHash" obj = none ∧ lookupField "totpSecret" obj = none) ∧
    (∀ (uid : Nat) (st : SysState) (obj : List (String × JsVal)),
      getUserById uid st = .ok obj →
      lookupField "passwordHash" obj = none ∧ lookupField "totpSecret" obj = none) := by
  refine ⟨fun u => ⟨rfl, rfl, rfl, rfl⟩, ?_, ?_, ?_, ?_⟩
  · intro e p d a st obj st2 h
    rw [register] at h
    split at h
    · simp at h
    · split at h
      · simp at h
      · split at h
        · simp at h
        · split at h
          · simp at h
          · simp only [Prod.mk.injEq] at h
            have hobj := Except.ok.inj h.1
            rw [← hobj]
            exact sanitizeUser_omits _
  · intro e p did st obj a1 r1 st2 h
    rw [login] at h
    split at h
    · simp at h
    · split at h
      · simp at h
      · split at h
        · split at h
          · simp at h
          · simp only [Prod.mk.injEq] at h
            have hres := Except.ok.inj h.1
            have hobj := (LoginResult.tokens.inj hres).1
            rw [← hobj]
            exact sanitizeUser_omits _
        · simp at h
  · intro tk code did st obj a1 r1 st2 h
    rw [verify2FA.eq_def] at h
    split at h
    · simp at h
    · split at h
      · simp at h
      · split at h
        · simp at h
        · simp at h
        · simp at h
        · split at h
          · simp at h
          · split at h
            · simp at h
            · split at h
              · split at h
                · simp only [Prod.mk.injEq] at h
                  have hres := Except.ok.inj h.1
                  have hobj : sanitizeUser _ = obj := congrArg Prod.fst hres
                  rw [← hobj]
                  exact sanitizeUser_omits _
                · simp at h
              · simp at h
  · intro uid st obj h
    rw [getUserById] at h
    split at h
    · simp at h
    · have hobj := Except.ok.inj h
      rw [← hobj]
      exact sanitizeUser_omits _

/-- Witness for C10 on a concrete registration: the returned object carries
no `passwordHash` or `totpSecret` key. -/
theorem returned_users_omit_secrets_witness :
    lookupField "passwordHash"
      [("id", JsVal.nat 0), ("email", JsVal.str "al@x.com"),
       ("displayName", JsVal.str "Al"), ("age", JsVal.nat 21),
       ("twoFAEnabled", JsVal.bool false)] = none ∧
    lookupField "totpSecret"
      [("id", JsVal.nat 0), ("email", JsVal.str "al@x.com"),
       ("displayName", JsVal.str "Al"), ("age", JsVal.nat 21),
       ("twoFAEnabled", JsVal.bool false)] = none := by
  exact returned_users_omit_secrets.2.1 "al@x.com" "longenough" "Al" 21 exEmptySys
    [("id", JsVal.nat 0), ("email", JsVal.str "al@x.com"),
     ("displayName", JsVal.str "Al"), ("age", JsVal.nat 21),
     ("twoFAEnabled", JsVal.bool false)]
    (register "al@x.com" "longenough" "Al" 21 exEmptySys).2 (by decide)

end FoundryAuth
